import Mathlib

/-!
Shallow embedding of the CNF (Canberra) spectrum-container codec of
`src/SpecFile_cnf.cpp` from the SpecUtils repository, together with a
verification of the specification's claims about it.

Modelling conventions:
* A binary stream is a `List Nat` of byte values; reads are by absolute
  offset.  A read past the end of the stream yields `0` bytes, matching the
  effect of a partial `istream::read` into the zero-initialised buffers the
  source uses at every unguarded read site.
* C++ `double`/`float` arithmetic is modelled exactly over `ℚ`; 32-bit float
  bit patterns are decoded by `f32FromBits` into an exact rational (or an
  infinity/NaN tag).
* External collaborators that are not part of this source file (the
  calibration-validity check, the boost timestamp-range test, the
  full-range-fraction conversion, the detector-sum routine) are modelled per
  the spec's interface description as explicit function parameters.
* The out-of-bounds `std::vector` writes the source can perform (undefined
  behaviour in C++) are made observable as the distinguished outcome
  `LoadOutcome.ub`.
-/

namespace SpecUtilsCnf

abbrev Byte := Nat

/-- Byte of the stream at absolute position `i`; positions at or past the end
of the stream yield `0` (the zero-initialised destination buffer is left
unchanged by a partial read). -/
def byteAt (data : List Byte) (i : Nat) : Byte := data.getD i 0

/-- Read `n` consecutive bytes starting at absolute position `pos`. -/
def readBytes (data : List Byte) (pos n : Nat) : List Byte :=
  (List.range n).map fun i => byteAt data (pos + i)

/-- Little-endian 16-bit unsigned read (`read_binary_data` on `uint16_t`). -/
def leU16 (data : List Byte) (pos : Nat) : Nat :=
  byteAt data pos + 256 * byteAt data (pos + 1)

/-- Little-endian 32-bit unsigned read (`read_binary_data` on `uint32_t`). -/
def leU32 (data : List Byte) (pos : Nat) : Nat :=
  byteAt data pos + 256 * byteAt data (pos + 1) +
    65536 * byteAt data (pos + 2) + 16777216 * byteAt data (pos + 3)

/-- The 32-bit word assembled from bytes `a b c d` in little-endian order
(`memcpy` of a 4-byte buffer into a 32-bit value on a little-endian host). -/
def leWord4 (a b c d : Byte) : Nat := a + 256 * b + 65536 * c + 16777216 * d

/-- The 2-byte marker test of `findCnfBlock` (source lines 179-181): the two
bytes at `pos` must be the block marker `B` followed by `0x20`. -/
def cnfMarkMatch (data : List Byte) (B pos : Nat) : Bool :=
  (byteAt data pos == B) && (byteAt data (pos + 1) == 0x20)

/-- One unrolling of the scan loop of `findCnfBlock` (source lines 176-184),
with an explicit fuel argument so that the definition is structurally
recursive.  Besides the result it returns the list of byte positions the loop
reads, in order.  The loop body runs only while `pos + 512 < streamsize`, so
`fuel = streamsize` always suffices (each iteration advances `pos` by 512). -/
def findCnfBlockGo (data : List Byte) (streamsize B : Nat) :
    Nat → Nat → Option Nat × List Nat
  | 0, _ => (none, [])
  | fuel + 1, pos =>
    if pos + 512 < streamsize then
      if cnfMarkMatch data B pos then (some pos, [pos, pos + 1])
      else
        let r := findCnfBlockGo data streamsize B fuel (pos + 512)
        (r.1, pos :: (pos + 1) :: r.2)
    else (none, [])

/-- `findCnfBlock` of the source (lines 174-185) together with its read
trace: scan forward from `SBeg` in 512-byte strides for the 2-byte marker
`(B, 0x20)`, giving up as soon as `pos + 512 ≥ streamsize`. -/
def findCnfBlockT (data : List Byte) (streamsize B SBeg : Nat) :
    Option Nat × List Nat :=
  findCnfBlockGo data streamsize B streamsize SBeg

/-- Result of `findCnfBlock`: offset of the first matching block, if any. -/
def findCnfBlock (data : List Byte) (streamsize B SBeg : Nat) : Option Nat :=
  (findCnfBlockT data streamsize B SBeg).1

/-- Byte positions read by `findCnfBlock`, in order. -/
def findCnfBlockReads (data : List Byte) (streamsize B SBeg : Nat) : List Nat :=
  (findCnfBlockT data streamsize B SBeg).2

/-- Exact value semantics of a 32-bit IEEE-754 float: a finite value is kept
as an exact rational, infinities and NaNs are tagged. -/
inductive F32 where
  | finite (q : ℚ)
  | infty (neg : Bool)
  | nan
deriving DecidableEq

/-- Decode a 32-bit IEEE-754 bit pattern (sign, 8-bit exponent, 23-bit
fraction, with subnormals) into its exact value. -/
def f32FromBits (bits : Nat) : F32 :=
  let sign : Nat := bits / 2 ^ 31 % 2
  let expo : Nat := bits / 2 ^ 23 % 256
  let frac : Nat := bits % 2 ^ 23
  if expo = 255 then
    if frac = 0 then .infty (sign = 1) else .nan
  else
    let mag : ℚ :=
      if expo = 0 then (frac : ℚ) / 2 ^ 149
      else ((2 ^ 23 + frac : Nat) : ℚ) * 2 ^ expo / 2 ^ 150
    .finite (if sign = 1 then -mag else mag)

/-- Multiplication by `0.25f` (source line 201), exact on the value
semantics; infinities and NaNs are preserved. -/
def f32Quarter : F32 → F32
  | .finite q => .finite (q / 4)
  | .infty s => .infty s
  | .nan => .nan

/-- The `v == 0.0f` test of the source (line 338); under IEEE `==` both
signed zeros compare equal to `0.0f`, which the exact value semantics gives
for free. -/
def f32IsZero : F32 → Bool
  | .finite q => q == 0
  | _ => false

/-- `readCnfFloat` of the source (lines 190-202): read the 4 raw bytes
`Buf[0..3]` at `pos`, reorder them into `TmpBuf = [Buf[2], Buf[3], Buf[0],
Buf[1]]`, reinterpret `TmpBuf` as a little-endian 32-bit float, and scale the
result by `0.25`. -/
def readCnfFloat (data : List Byte) (pos : Nat) : F32 :=
  let buf0 := byteAt data pos
  let buf1 := byteAt data (pos + 1)
  let buf2 := byteAt data (pos + 2)
  let buf3 := byteAt data (pos + 3)
  f32Quarter (f32FromBits (leWord4 buf2 buf3 buf0 buf1))

/-- Truncation toward zero, the C++ `static_cast<int64_t>` of a floating
value (the source only applies it to nonnegative quantities, where it agrees
with `⌊·⌋`). -/
def truncQ (q : ℚ) : ℤ := if 0 ≤ q then ⌊q⌋ else -⌊-q⌋

/-- The CNF two-word time formula `J*429.4967296 + I/1.0E7` (source line
276), exact: `429.4967296 = 2^32 / 10^7`. -/
def cnfSeconds (I J : Nat) : ℚ :=
  (J : ℚ) * (4294967296 / 10 ^ 7) + (I : ℚ) / 10 ^ 7

/-- `days` of the timestamp split (source line 285). -/
def cnfTsDays (I J : Nat) : ℤ :=
  truncQ (cnfSeconds I J / (24 * 60 * 60))

/-- `remainder_secs` of the timestamp split (source line 286). -/
def cnfTsSecs (I J : Nat) : ℤ :=
  truncQ (cnfSeconds I J - (cnfTsDays I J : ℚ) * (24 * 60 * 60))

/-- `remainder_ms` of the timestamp split (source line 287). -/
def cnfTsMs (I J : Nat) : ℤ :=
  truncQ ((cnfSeconds I J - (cnfTsDays I J : ℚ) * (24 * 60 * 60) -
    (cnfTsSecs I J : ℚ)) * 1000)

/-- Acquisition timestamp decode (source lines 280-297).  The value is in
seconds since the modified-Julian epoch 1858-11-17 00:00:00, assembled by
adding whole days, whole seconds and milliseconds to the epoch; `none` is the
boost `not_a_date_time` sentinel.  `addOk` abstracts whether the three boost
additions stay inside the representable timestamp range (the `catch(...)` of
source lines 294-297 replaces an out-of-range result by the sentinel). -/
def cnfStartTime (addOk : ℤ → ℤ → ℤ → Bool) (I J : Nat) : Option ℚ :=
  let days := cnfTsDays I J
  let secs := cnfTsSecs I J
  let ms := cnfTsMs I J
  if addOk days secs ms then
    some (((days * 24 * 3600 + secs : ℤ) : ℚ) + (ms : ℚ) / 1000)
  else none

/-- The channel-count rejection of the source (lines 315-317): the bit trick
`(num_channels != 0) && !(num_channels & (num_channels - 1))` recognises
powers of two, and a non-power-of-two count is rejected exactly when it lies
in `[64, 65536]`. -/
def channelCountInvalid (num_channels : Nat) : Bool :=
  let isPowerOfTwo := (num_channels != 0) && (num_channels &&& (num_channels - 1) == 0)
  !isPowerOfTwo && (num_channels ≥ 64 && num_channels ≤ 65536)

/-- The energy-calibration models of SpecUtils that the codec mentions. -/
inductive EnergyCalType where
  | Polynomial
  | FullRangeFraction
  | LowerChannelEdge
  | UnspecifiedUsingDefaultPolynomial
  | InvalidEquationType
deriving DecidableEq

/-- How the try-block of `load_from_cnf` can go wrong: `thrown` is a
`runtime_error` caught at lines 430-437; `oob` marks the out-of-bounds
`std::vector` write of line 412 (undefined behaviour, not an exception). -/
inductive CnfErr where
  | thrown
  | oob
deriving DecidableEq

/-- Modelled from the spec: interface of the external calibration-validity
collaborator `SpecUtils::calibration_is_valid (model, coefficients,
deviationPairs, channelCount) -> bool` (spec section 6); its body is not part
of this source file, so it is kept abstract. -/
def CalibValidFn : Type :=
  EnergyCalType → List F32 → List (F32 × F32) → Nat → Bool

/-- Calibration acceptance step of the source (lines 326-345): the three
decoded coefficients are installed with model `Polynomial` and checked by the
external validity collaborator with an empty deviation-pair list and the
channel count; an invalid non-all-zero calibration throws, an invalid
all-zero calibration is cleared and marked `InvalidEquationType`. -/
def cnfCalibStep (calibValid : CalibValidFn) (coeffs : List F32) (nc : Nat) :
    Except CnfErr (List F32 × EnergyCalType) :=
  let validCalib := calibValid .Polynomial coeffs [] nc
  if validCalib then .ok (coeffs, .Polynomial)
  else
    let allZeros := coeffs.all f32IsZero
    if !allZeros then .error .thrown
    else .ok ([], .InvalidEquationType)

/-- Modelled from the spec: the external `trim` of StringAlgo ("fixed-width,
whitespace/NUL-padded text, trimmed before storage", spec section 4.3);
leading and trailing whitespace/NUL bytes are removed. -/
def isTrimByte (b : Byte) : Bool :=
  b == 0x20 || b == 0x09 || b == 0x0A || b == 0x0B || b == 0x0C || b == 0x0D || b == 0x00

/-- Trim padding bytes from both ends of a fixed-width text field. -/
def trimBytes (s : List Byte) : List Byte :=
  ((s.dropWhile isTrimByte).reverse.dropWhile isTrimByte).reverse

/-- Remarks appended during decode; the source prefixes the raw text with
"Sample ID: " (line 239) or "MCA Type: " (line 353), modelled as tags. -/
inductive Remark where
  | sampleId (s : List Byte)
  | mcaType (s : List Byte)
deriving DecidableEq

/-- Byte text "I2K". -/
def strI2K : List Byte := [0x49, 0x32, 0x4B]

/-- Byte text "Ge". -/
def strGe : List Byte := [0x47, 0x65]

/-- Byte text "Canberra". -/
def strCanberra : List Byte := [0x43, 0x61, 0x6E, 0x62, 0x65, 0x72, 0x72, 0x61]

/-- Byte text "Falcon 5000". -/
def strFalcon5000 : List Byte :=
  [0x46, 0x61, 0x6C, 0x63, 0x6F, 0x6E, 0x20, 0x35, 0x30, 0x30, 0x30]

/-- Byte text "Spectrometer". -/
def strSpectrometer : List Byte :=
  [0x53, 0x70, 0x65, 0x63, 0x74, 0x72, 0x6F, 0x6D, 0x65, 0x74, 0x65, 0x72]

/-- The detector types the codec can set. -/
inductive DetectorType where
  | Unknown
  | Falcon5000
deriving DecidableEq

/-- The in-flight measurement record the decode populates. -/
structure Measurement where
  title : List Byte := []
  remarks : List Remark := []
  startTime : Option ℚ := none
  realTime : ℚ := 0
  liveTime : ℚ := 0
  calibrationCoeffs : List F32 := []
  calibrationModel : EnergyCalType := .InvalidEquationType
  detectorName : List Byte := []
  gammaCounts : List ℚ := []
  gammaCountSum : ℚ := 0
deriving DecidableEq

/-- The part of the host `SpecFile` object state that `load_from_cnf`
touches. -/
structure SpecFileState where
  measurements : List Measurement := []
  remarks : List Remark := []
  detectorType : DetectorType := .Unknown
  instrumentType : List Byte := []
  manufacturer : List Byte := []
  instrumentModel : List Byte := []
deriving DecidableEq

/-- The state `SpecFile::reset()` leaves behind: everything cleared. -/
def resetState : SpecFileState := {}

/-- The external collaborators `load_from_cnf` depends on, modelled from the
spec's interface descriptions (sections 4.2 and 6). -/
structure CnfExternal where
  calibValid : CalibValidFn
  tsAddOk : ℤ → ℤ → ℤ → Bool

/-- Location of the channel array (source lines 395-405): find the first
`0x05` block; then look for a second `0x05` block starting at `firstMatch +
512`.  Returns `(SBeg, start)` where `SBeg = firstMatch + 512` is the value
the size check of line 407 uses and `start` is the offset the stream is
seeked to before the channel read (second match + 512 if a second block was
found, otherwise `SBeg` itself). -/
def cnfChannelStart (data : List Byte) (size : Nat) : Option (Nat × Nat) :=
  match findCnfBlock data size 0x5 0 with
  | none => none
  | some first =>
    let SBeg := first + 512
    match findCnfBlock data size 0x5 SBeg with
    | some SPos => some (SBeg, SPos + 512)
    | none => some (SBeg, SBeg)

/-- Channel-data step of the source (lines 395-412): locate the channel
array, apply the `SBeg + 4*num_channels > size` check of line 407, read
`4*num_channels` bytes from `start` into the zero-initialised vector of
`num_channels` 32-bit words (a partial read past the end of the stream
leaves the remaining vector entries unchanged), then force entries 0 and 1
to zero - an out-of-bounds write when `num_channels < 2`.  In the source the
byte count `4*num_channels` at lines 407 and 409 is an `int * uint32_t`
product, computed in 32-bit unsigned arithmetic: it wraps modulo `2^32`
when `num_channels ≥ 2^30`, so both the check and the read use
`4 * nc % 2^32` bytes, filling only the first `(4 * nc % 2^32) / 4` words
of the vector.  On success also returns the final stream position. -/
def cnfChannelStep (data : List Byte) (size nc : Nat) :
    Except CnfErr (List Nat × Nat) :=
  match cnfChannelStart data size with
  | none => .error .thrown
  | some (SBeg, start) =>
    let nbytes := 4 * nc % 4294967296
    if SBeg + nbytes > size then .error .thrown
    else
      let channeldata := (List.range nc).map fun i =>
        if i < nbytes / 4 then leU32 data (start + 4 * i) else 0
      if nc < 2 then .error .oob
      else .ok (((channeldata.set 0 0).set 1 0), min (start + nbytes) data.length)

/-- The try-block of `load_from_cnf` (source lines 214-429), acting on the
freshly reset host state.  On success returns the updated host state and the
final stream position. -/
def cnfTryBody (ext : CnfExternal) (data : List Byte) (size : Nat) :
    Except CnfErr (SpecFileState × Nat) :=
  let st := resetState
  let meas : Measurement := {}
  -- title block, lines 226-240
  let meas :=
    match findCnfBlock data size 0x1 0 with
    | none => meas
    | some SPos =>
      let title := trimBytes (readBytes data (SPos + 32 + 16) 64)
      let sampleid := trimBytes (readBytes data (SPos + 32 + 16 + 64) 16)
      let meas := { meas with title := title }
      if sampleid.length ≠ 0 then
        { meas with remarks := meas.remarks ++ [Remark.sampleId sampleid] }
      else meas
  -- header block, lines 242-270
  match findCnfBlock data size 0x0 0 with
  | none => .error .thrown
  | some SPos =>
    let w34 := leU16 data (SPos + 34)
    let w36 := leU16 data (SPos + 36)
    let record_offset := SPos + w36 + 48 + 1
    let num_channel_offset := SPos + 48 + 137
    let energy_calib_offset := SPos + w34 + 48 + 68
    let mca_offset := SPos + w34 + 48 + 156
    let instrument_offset := SPos + w34 + 48 + 1
    let generic_detector_offset := SPos + w34 + 48 + 732
    let specific_detector_offset := SPos + w34 + 48 + 26
    let serial_num_offset := SPos + w34 + 48 + 940
    if record_offset + 24 > size ∨ energy_calib_offset + 12 > size ∨
        num_channel_offset + 4 > size ∨ mca_offset + 8 > size ∨
        instrument_offset + 31 > size ∨ generic_detector_offset + 8 > size ∨
        specific_detector_offset + 16 > size ∨ serial_num_offset + 12 > size then
      .error .thrown
    else
      -- timestamp and durations, lines 272-309
      let I := leU32 data record_offset
      let J := leU32 data (record_offset + 4)
      let meas := { meas with startTime := cnfStartTime ext.tsAddOk I J }
      let I2 := leU32 data (record_offset + 8)
      let J2 := leU32 data (record_offset + 12)
      let meas := { meas with realTime := cnfSeconds (4294967295 - I2) (4294967295 - J2) }
      let I3 := leU32 data (record_offset + 16)
      let J3 := leU32 data (record_offset + 20)
      let meas := { meas with liveTime := cnfSeconds (4294967295 - I3) (4294967295 - J3) }
      -- channel count, lines 311-317
      let num_channels := leU32 data num_channel_offset
      if channelCountInvalid num_channels then .error .thrown
      else
        -- energy calibration, lines 319-345
        let coeffs := [readCnfFloat data energy_calib_offset,
          readCnfFloat data (energy_calib_offset + 4),
          readCnfFloat data (energy_calib_offset + 8)]
        match cnfCalibStep ext.calibValid coeffs num_channels with
        | .error e => .error e
        | .ok (cc, model) =>
          let meas := { meas with calibrationCoeffs := cc, calibrationModel := model }
          -- MCA type, lines 347-353 (pushed onto the host remarks)
          let mca_type := trimBytes (readBytes data mca_offset 8)
          let st :=
            if mca_type.length ≠ 0 then
              { st with remarks := st.remarks ++ [Remark.mcaType mca_type] }
            else st
          -- instrument name, lines 355-360
          let instrument_name := trimBytes (readBytes data instrument_offset 31)
          let meas :=
            if instrument_name.length ≠ 0 then
              { meas with detectorName := instrument_name }
            else meas
          -- detector heuristic, lines 363-377
          let generic_detector := trimBytes (readBytes data generic_detector_offset 8)
          let st :=
            if mca_type = strI2K ∧ generic_detector = strGe then
              { st with
                detectorType := .Falcon5000
                instrumentType := strSpectrometer
                manufacturer := strCanberra
                instrumentModel := strFalcon5000 }
            else st
          -- channel data, lines 395-421
          match cnfChannelStep data size num_channels with
          | .error e => .error e
          | .ok (channeldata, endPos) =>
            let channel_data : List ℚ := channeldata.map fun c => (c : ℚ)
            let meas := { meas with
              gammaCounts := channel_data
              gammaCountSum := channel_data.sum }
            -- commit, line 429
            .ok ({ st with measurements := st.measurements ++ [meas] }, endPos)

/-- Result of a `load_from_cnf` call: `ok` carries the committed host state
and final stream position; `fail` the host state and stream position after
the rollback of lines 430-437 (or the early `!input.good()` return of lines
209-210); `ub` marks an execution that reaches the out-of-bounds vector
write of line 412. -/
inductive LoadOutcome where
  | ok (st : SpecFileState) (pos : Nat)
  | fail (st : SpecFileState) (pos : Nat)
  | ub
deriving DecidableEq

/-- Constructor-only view of a `LoadOutcome`. -/
inductive LoadKind where
  | ok
  | fail
  | ub
deriving DecidableEq

/-- Which constructor a `LoadOutcome` is. -/
def LoadOutcome.kind : LoadOutcome → LoadKind
  | .ok _ _ => .ok
  | .fail _ _ => .fail
  | .ub => .ub

/-- `startTime` of the first committed measurement, when the call succeeded. -/
def LoadOutcome.firstStart : LoadOutcome → Option (Option ℚ)
  | .ok st _ => st.measurements.head?.map Measurement.startTime
  | _ => none

/-- `SpecFile::load_from_cnf` (source lines 171-442).  `st0` is the host
state at entry, `origPos` the stream read position at entry and `good`
whether the stream is in a good state; the stream length seen by the parser
is `eof_pos - orig_pos` (line 220) while all reads are absolute.  `reset()`
is called unconditionally at line 207; every caught exception restores the
entry read position and resets again (lines 430-437); the commit step
`cleanup_after_load` of line 439 lives outside this source file and is
modelled as the identity on the committed state. -/
def load_from_cnf (ext : CnfExternal) (st0 : SpecFileState) (data : List Byte)
    (origPos : Nat) (good : Bool) : LoadOutcome :=
  if !good then .fail resetState origPos
  else
    let size := data.length - origPos
    match cnfTryBody ext data size with
    | .ok (st, pos) => .ok st pos
    | .error .thrown => .fail resetState origPos
    | .error .oob => .ub

/-- The single already-summed spectrum handed to `write_cnf` by the external
detector-sum collaborator (spec section 6); `gammaCounts = none` models a
null `gamma_counts()` pointer. -/
structure SummedMeas where
  gammaCounts : Option (List ℚ) := none
  realTime : ℚ := 0
  liveTime : ℚ := 0
  startTime : Option ℚ := none
  calibModel : EnergyCalType := .InvalidEquationType
  calibCoeffs : List F32 := []
  deviationPairs : List (F32 × F32) := []
  neutronSum : ℚ := 0
  containedNeutron : Bool := false

/-- `SpecFile::write_cnf` (source lines 445-566).  The sample/detector
selection of lines 454-463 only feeds the external detector-sum collaborator
(line 466), whose result is taken here as the `summed` argument; `frfToPoly`
is the external full-range-fraction conversion collaborator of line 494.
Returns the boolean result together with every byte written to the output
stream.  The body never writes: it either returns `false` early (lines
468-469) or reaches the unconditional `throw` of line 556, caught at lines
558-563 and reported as `false`. -/
def write_cnf (frfToPoly : List F32 → Nat → List F32)
    (summed : Option SummedMeas) : Bool × List Byte :=
  match summed with
  | none => (false, [])
  | some s =>
    match s.gammaCounts with
    | none => (false, [])
    | some gamma_channel_counts =>
      if gamma_channel_counts.isEmpty then (false, [])
      else
        let energy_cal_coeffs :=
          match s.calibModel with
          | .Polynomial | .UnspecifiedUsingDefaultPolynomial => s.calibCoeffs
          | .FullRangeFraction => frfToPoly s.calibCoeffs gamma_channel_counts.length
          | .LowerChannelEdge | .InvalidEquationType => ([] : List F32)
        -- lines 504-551 compute fractional seconds and loop over analysis
        -- results without writing; line 556 throws, lines 558-563 catch
        -- and report false.  `energy_cal_coeffs` is dead at that point.
        let _ := energy_cal_coeffs
        (false, [])

/-- External collaborators that always accept. -/
def extT : CnfExternal :=
  { calibValid := fun _ _ _ _ => true, tsAddOk := fun _ _ _ => true }

/-- External collaborators whose calibration check always rejects. -/
def extCalibFalse : CnfExternal :=
  { calibValid := fun _ _ _ _ => false, tsAddOk := fun _ _ _ => true }

/-- External collaborators whose timestamp-range check always reports
overflow. -/
def extTsNone : CnfExternal :=
  { calibValid := fun _ _ _ _ => true, tsAddOk := fun _ _ _ => false }

/-- A 1400-byte stream: header block (marker `0x00, 0x20`) at offset 0 with
`w34 = w36 = 0`, one channel-data block (marker `0x05, 0x20`) at offset 512,
no second channel block, `num_channels = 0`, all other bytes zero. -/
def dataN0 : List Byte :=
  ((((List.replicate 1400 0).set 1 0x20).set 512 0x05).set 513 0x20)

/-- `dataN0` with `num_channels = 64` (byte 185 of the header). -/
def dataA : List Byte := dataN0.set 185 0x40

/-- `dataA` with one nonzero energy-calibration byte (offset 118), making the
first decoded calibration coefficient nonzero. -/
def dataAnz : List Byte := dataA.set 118 1

/-- A 1600-byte stream like `dataA` but with a second channel-data block at
offset 1024, so the channel read starts at 1536 while the size check of line
407 still uses 1024. -/
def dataB : List Byte :=
  ((((((List.replicate 1600 0).set 1 0x20).set 512 0x05).set 513 0x20).set
    1024 0x05).set 1025 0x20).set 185 0x40

/-- A host state that already holds one measurement (a non-reset pre-call
state). -/
def preSt : SpecFileState := { measurements := [{}] }

/-- Constructor-and-error view of a try-body result (payload discarded). -/
def exShape : Except CnfErr (SpecFileState × Nat) → Option CnfErr
  | .ok _ => none
  | .error c => some c

end SpecUtilsCnf

namespace SpecUtilsCnf

set_option maxRecDepth 100000

/-! ### Helper lemmas -/

/-- The bit pattern `0x3F800000` decodes to the IEEE-754 value `1`. -/
theorem f32FromBits_one : f32FromBits 1065353216 = .finite 1 := by
  unfold f32FromBits
  norm_num

/-- The error shape of the decode try-block does not depend on the abstract
timestamp-range test: that test only influences the stored `startTime`. -/
theorem tryBody_shape_indep (cv : CalibValidFn) (f g : ℤ → ℤ → ℤ → Bool)
    (data : List Byte) (size : Nat) :
    exShape (cnfTryBody ⟨cv, f⟩ data size) = exShape (cnfTryBody ⟨cv, g⟩ data size) := by
  simp only [cnfTryBody]
  repeat' split <;> try rfl

/-- Success or failure of `load_from_cnf` does not depend on the abstract
timestamp-range test. -/
theorem loadKind_tsAddOk_indep (cv : CalibValidFn) (f g : ℤ → ℤ → ℤ → Bool)
    (st0 : SpecFileState) (data : List Byte) (origPos : Nat) (good : Bool) :
    (load_from_cnf ⟨cv, f⟩ st0 data origPos good).kind =
      (load_from_cnf ⟨cv, g⟩ st0 data origPos good).kind := by
  have h := tryBody_shape_indep cv f g data (data.length - origPos)
  unfold load_from_cnf
  cases good with
  | false => rfl
  | true =>
    simp only [Bool.not_true]
    cases h1 : cnfTryBody ⟨cv, f⟩ data (data.length - origPos) with
    | ok v =>
      cases h2 : cnfTryBody ⟨cv, g⟩ data (data.length - origPos) with
      | ok w => rfl
      | error e => rw [h1, h2] at h; simp [exShape] at h
    | error e =>
      cases h2 : cnfTryBody ⟨cv, g⟩ data (data.length - origPos) with
      | ok w => rw [h1, h2] at h; simp [exShape] at h
      | error e2 =>
        rw [h1, h2] at h
        simp [exShape] at h
        subst h
        cases e <;> rfl

/-! ### Claims -/

/-- Claim C1 (corrected).  Channel-array location: when a second marker-0x05
block is found at offset `S`, the channel array is read starting at
`S + 512`, as the claim states; but when no second block is found the read
starts at `firstMatch + 512`, not at the first match's offset as the claim
states. -/
theorem claim_C1 (data : List Byte) (size first : Nat)
    (h : findCnfBlock data size 0x5 0 = some first) :
    (findCnfBlock data size 0x5 (first + 512) = none →
      cnfChannelStart data size = some (first + 512, first + 512)) ∧
    ∀ S, findCnfBlock data size 0x5 (first + 512) = some S →
      cnfChannelStart data size = some (first + 512, S + 512) := by
  refine ⟨fun h2 => ?_, fun S h2 => ?_⟩ <;> simp [cnfChannelStart, h, h2]

/-- Claim C1 counterexample: a stream whose first 0x05 block is at 512 and
which has no second 0x05 block; the channel array is read from 1024, not
from the first match's offset 512 as the claim states. -/
theorem claim_C1_cex :
    findCnfBlock dataA 1400 0x5 0 = some 512 ∧
    findCnfBlock dataA 1400 0x5 (512 + 512) = none ∧
    cnfChannelStart dataA 1400 = some (1024, 1024) ∧ (1024 : Nat) ≠ 512 :=
  ⟨by decide, by decide, by decide, by decide⟩

/-- Witness for claim C1 at a concrete stream. -/
theorem claim_C1_wit :
    findCnfBlock dataA 1400 0x5 0 = some 512 ∧
    cnfChannelStart dataA 1400 = some (512 + 512, 512 + 512) :=
  ⟨by decide, (claim_C1 dataA 1400 512 (by decide)).1 (by decide)⟩

/-- Claim C2 (corrected).  The decoder's channel-data bounds check uses
`SBeg = firstMatch + 512`, not the actual read start, and it compares
against the 32-bit-wrapped byte count `4 * nc % 2^32` (lines 407/409 compute
`4*num_channels` in 32-bit unsigned arithmetic): it fails the decode when
`SBeg + (4 * nc % 2^32) > size`, and only in the no-second-block case
(where the read start equals `SBeg`) does the check bound the read window,
which covers `4 * nc % 2^32` bytes. -/
theorem claim_C2 (data : List Byte) (size nc SBeg start : Nat)
    (h : cnfChannelStart data size = some (SBeg, start)) :
    (SBeg + 4 * nc % 4294967296 > size →
      cnfChannelStep data size nc = .error .thrown) ∧
    (SBeg + 4 * nc % 4294967296 ≤ size → start = SBeg →
      start + 4 * nc % 4294967296 ≤ size) := by
  constructor
  · intro hgt
    unfold cnfChannelStep
    rw [h]
    simp [hgt]
  · intro hle hse
    omega

/-- Claim C2 counterexample: on `dataB` (second 0x05 block at 1024,
`num_channels = 64`, stream length 1600) the check `1024 + 256 ≤ 1600`
passes (at this count the 32-bit byte count does not wrap) and the decode
succeeds, yet the actual read window starts at 1536 and extends to 1792,
past the end of the stream. -/
theorem claim_C2_cex :
    cnfChannelStart dataB 1600 = some (1024, 1536) ∧
    leU32 dataB 185 = 64 ∧
    1024 + 4 * 64 ≤ 1600 ∧
    1536 + 4 * 64 > 1600 ∧
    (load_from_cnf extT {} dataB 0 true).kind = .ok :=
  ⟨by decide, by decide, by decide, by decide, by decide⟩

/-- Witness for claim C2 at a concrete stream: an oversized channel count is
rejected by the check. -/
theorem claim_C2_wit : cnfChannelStep dataA 1400 1000 = Except.error CnfErr.thrown :=
  (claim_C2 dataA 1400 1000 1024 1024 (by decide)).1 (by decide)

/-- Claim C3 (corrected).  Whenever `load_from_cnf` fails it returns `false`
(rather than letting an exception escape), the stream position equals the
entry position, and no measurement is committed; but the host object is left
in the fully reset state, not in its pre-call state (`reset()` runs
unconditionally at entry, line 207, and again on the failure path, line
435). -/
theorem claim_C3 (ext : CnfExternal) (st0 : SpecFileState) (data : List Byte)
    (origPos : Nat) (good : Bool) (st1 : SpecFileState) (pos : Nat)
    (h : load_from_cnf ext st0 data origPos good = .fail st1 pos) :
    st1 = resetState ∧ st1.measurements = [] ∧ pos = origPos := by
  unfold load_from_cnf at h
  cases good with
  | false =>
    simp only [Bool.not_false, if_true] at h
    cases h
    exact ⟨rfl, rfl, rfl⟩
  | true =>
    simp only [Bool.not_true] at h
    cases h1 : cnfTryBody ext data (data.length - origPos) with
    | ok v =>
      rw [h1] at h
      simp at h
    | error e =>
      rw [h1] at h
      cases e with
      | thrown =>
        simp only at h
        cases h
        exact ⟨rfl, rfl, rfl⟩
      | oob => simp at h

/-- Claim C3 counterexample: a pre-call state holding one measurement; a
failing decode (empty stream) leaves the object in the reset state, which
differs from the pre-call state. -/
theorem claim_C3_cex :
    load_from_cnf extT preSt [] 0 true = .fail resetState 0 ∧ resetState ≠ preSt :=
  ⟨by decide, by decide⟩

/-- Witness for claim C3 at a concrete failing decode. -/
theorem claim_C3_wit :
    load_from_cnf extT preSt [] 0 true = .fail resetState 0 ∧
    (resetState = resetState ∧ resetState.measurements = [] ∧ (0 : Nat) = 0) :=
  ⟨by decide, claim_C3 extT preSt [] 0 true resetState 0 (by decide)⟩

/-- Claim C5 (confirmed).  The calibration step installs the three decoded
coefficients with model `Polynomial` and consults the external validity
collaborator with an empty deviation-pair list and the channel count; if the
check passes the coefficients stand, if it fails on a non-all-zero triple the
decode fails, and if it fails on an all-zero triple the coefficients are
cleared, the model becomes `InvalidEquationType`, and the step succeeds. -/
theorem claim_C5 (cv : CalibValidFn) (coeffs : List F32) (nc : Nat) :
    cnfCalibStep cv coeffs nc =
      (if cv .Polynomial coeffs [] nc then Except.ok (coeffs, EnergyCalType.Polynomial)
       else if coeffs.all f32IsZero then
         Except.ok ([], EnergyCalType.InvalidEquationType)
       else Except.error CnfErr.thrown) := by
  unfold cnfCalibStep
  cases hv : cv .Polynomial coeffs [] nc with
  | false =>
    simp only [Bool.false_eq_true, if_false]
    cases hz : coeffs.all f32IsZero <;> simp
  | true => simp

/-- Claim C6 (confirmed).  The word-swapped float decoder returns exactly a
quarter of the IEEE-754 single-precision value whose little-endian byte
representation is `[b2, b3, b0, b1]`. -/
theorem claim_C6 (b0 b1 b2 b3 : Byte) (v : ℚ)
    (h : f32FromBits (leWord4 b2 b3 b0 b1) = .finite v) :
    readCnfFloat [b0, b1, b2, b3] 0 = .finite (v / 4) := by
  have e0 : byteAt [b0, b1, b2, b3] 0 = b0 := rfl
  have e1 : byteAt [b0, b1, b2, b3] (0 + 1) = b1 := rfl
  have e2 : byteAt [b0, b1, b2, b3] (0 + 2) = b2 := rfl
  have e3 : byteAt [b0, b1, b2, b3] (0 + 3) = b3 := rfl
  simp only [readCnfFloat]
  rw [e2, e3, e0, e1, h]
  rfl

/-- Witness for claim C6: the bytes `[0x80, 0x3F, 0x00, 0x00]` reorder to
the pattern of `1.0f` and decode to `0.25`. -/
theorem claim_C6_wit :
    readCnfFloat [0x80, 0x3F, 0, 0] 0 = .finite (1 / 4) ∧
    f32FromBits (leWord4 0 0 0x80 0x3F) = .finite 1 :=
  ⟨claim_C6 0x80 0x3F 0 0 1 f32FromBits_one, f32FromBits_one⟩

/-- Claim C9 (confirmed).  `write_cnf` returns `false` and writes no bytes,
for every summed-spectrum input and every conversion collaborator: either
the summed spectrum is missing or empty, or the unconditional
not-implemented throw is caught and reported as `false`. -/
theorem claim_C9 (frfToPoly : List F32 → Nat → List F32)
    (summed : Option SummedMeas) :
    write_cnf frfToPoly summed = (false, []) := by
  unfold write_cnf
  repeat' split
  all_goals rfl

/-- Claim C10 (code bug).  `dataN0` passes every earlier check with
`num_channels = 0` (channel counts 0 and 1 are accepted, since the
power-of-two test only applies inside `[64, 65536]`), so the decode reaches
the channel-data step and performs the unguarded writes `channeldata[0] =
channeldata[1] = 0` on a zero-length vector: an out-of-bounds write, contrary
to the claim that `channelCount ≥ 2` always holds at this point. -/
theorem claim_C10 :
    load_from_cnf extT {} dataN0 0 true = LoadOutcome.ub ∧
    leU32 dataN0 185 = 0 ∧
    channelCountInvalid 0 = false ∧
    channelCountInvalid 1 = false :=
  ⟨by decide, by decide, by decide, by decide⟩


/-- The land-with-self identity, via bitwise extensionality. -/
theorem land_self_eq (a : Nat) : a &&& a = a :=
  Nat.eq_of_testBit_eq fun i => by rw [Nat.testBit_land, Bool.and_self]

/-- Bitwise AND of an even and an odd number, one binary digit at a time. -/
theorem land_even_odd (a b : Nat) : (2 * a) &&& (2 * b + 1) = 2 * (a &&& b) := by
  apply Nat.eq_of_testBit_eq
  intro i
  have h1 : 2 * a / 2 = a := by omega
  have h2 : (2 * b + 1) / 2 = b := by omega
  have h3 : 2 * (a &&& b) / 2 = a &&& b := by omega
  cases i with
  | zero =>
    have m1 : 2 * a % 2 = 0 := by omega
    have m3 : 2 * (a &&& b) % 2 = 0 := by omega
    simp [Nat.testBit_land, Nat.testBit_zero, m1, m3]
  | succ i =>
    rw [Nat.testBit_land, Nat.testBit_succ, Nat.testBit_succ, Nat.testBit_succ,
      h1, h2, h3, Nat.testBit_land]

/-- Bitwise AND of an odd and an even number, one binary digit at a time. -/
theorem land_odd_even (a b : Nat) : (2 * a + 1) &&& (2 * b) = 2 * (a &&& b) := by
  apply Nat.eq_of_testBit_eq
  intro i
  have h1 : (2 * a + 1) / 2 = a := by omega
  have h2 : 2 * b / 2 = b := by omega
  have h3 : 2 * (a &&& b) / 2 = a &&& b := by omega
  cases i with
  | zero =>
    have m2 : 2 * b % 2 = 0 := by omega
    have m3 : 2 * (a &&& b) % 2 = 0 := by omega
    simp [Nat.testBit_land, Nat.testBit_zero, m2, m3]
  | succ i =>
    rw [Nat.testBit_land, Nat.testBit_succ, Nat.testBit_succ, Nat.testBit_succ,
      h1, h2, h3, Nat.testBit_land]

/-- For positive `n` the bit trick `n &&& (n - 1) = 0` recognises exactly
the powers of two. -/
theorem land_pred_pow2 : ∀ n : Nat, 1 ≤ n → ((n &&& (n - 1)) = 0 ↔ ∃ k, n = 2 ^ k) := by
  intro n
  induction n using Nat.strong_induction_on with
  | _ n ih =>
    intro hn
    rcases Nat.lt_or_ge n 2 with h2 | h2
    · have h1 : n = 1 := by omega
      subst h1
      exact iff_of_true (by decide) ⟨0, rfl⟩
    · rcases Nat.even_or_odd n with he | ho
      · obtain ⟨m, hm⟩ := he
        have hm2 : n = 2 * m := by omega
        subst hm2
        have hm1 : 1 ≤ m := by omega
        have hpred : 2 * m - 1 = 2 * (m - 1) + 1 := by omega
        rw [hpred, land_even_odd]
        have ihm := ih m (by omega) hm1
        constructor
        · intro h0
          obtain ⟨k, hk⟩ := ihm.mp (by omega)
          exact ⟨k + 1, by rw [hk]; ring⟩
        · rintro ⟨k, hk⟩
          cases k with
          | zero => omega
          | succ k =>
            have hmk : m = 2 ^ k := by
              have : 2 * m = 2 * 2 ^ k := by rw [hk]; ring
              omega
            have := ihm.mpr ⟨k, hmk⟩
            omega
      · obtain ⟨m, hm⟩ := ho
        subst hm
        have hm1 : 1 ≤ m := by omega
        have hpred : 2 * m + 1 - 1 = 2 * m := by omega
        rw [hpred, land_odd_even, land_self_eq]
        constructor
        · intro h; omega
        · rintro ⟨k, hk⟩
          cases k with
          | zero => omega
          | succ k =>
            exfalso
            have : 2 * m + 1 = 2 * 2 ^ k := by rw [hk]; ring
            omega

/-- Claim C4 (confirmed).  The decode rejects a channel count exactly when
it lies in `[64, 65536]` and is not a power of two; every other value,
including 0 and 1, passes without the power-of-two check. -/
theorem claim_C4 (n : Nat) :
    channelCountInvalid n = true ↔ (64 ≤ n ∧ n ≤ 65536 ∧ ¬ ∃ k, n = 2 ^ k) := by
  rcases Nat.eq_zero_or_pos n with h0 | hpos
  · subst h0
    exact iff_of_false (by decide) (by omega)
  · have hiff := land_pred_pow2 n hpos
    by_cases hp : n &&& (n - 1) = 0
    · apply iff_of_false
      · simp [channelCountInvalid, Nat.pos_iff_ne_zero.mp hpos, hp]
      · rintro ⟨_, _, hno⟩
        exact hno (hiff.mp hp)
    · by_cases hr : 64 ≤ n ∧ n ≤ 65536
      · apply iff_of_true
        · simp [channelCountInvalid, hp, hr.1, hr.2]
        · exact ⟨hr.1, hr.2, fun hk => hp (hiff.mpr hk)⟩
      · apply iff_of_false
        · simp only [channelCountInvalid, Bool.and_eq_true, Bool.not_eq_true]
          rcases (by omega : ¬ 64 ≤ n ∨ ¬ n ≤ 65536) with h | h <;> simp [h]
        · rintro ⟨ha, hb, _⟩
          exact hr ⟨ha, hb⟩


/-- The two-word time formula is nonnegative for unsigned inputs. -/
theorem cnfSeconds_nonneg (I J : Nat) : 0 ≤ cnfSeconds I J := by
  unfold cnfSeconds
  positivity

/-- Truncation toward zero agrees with the floor on nonnegative values. -/
theorem truncQ_of_nonneg {q : ℚ} (h : 0 ≤ q) : truncQ q = ⌊q⌋ := if_pos h

/-- The day/second/millisecond split stores exactly the two-word time value
truncated to whole milliseconds. -/
theorem cnfTs_value (I J : Nat) :
    ((cnfTsDays I J * 24 * 3600 + cnfTsSecs I J : ℤ) : ℚ) + (cnfTsMs I J : ℚ) / 1000 =
      ((⌊cnfSeconds I J * 1000⌋ : ℤ) : ℚ) / 1000 := by
  have hx0 : 0 ≤ cnfSeconds I J := cnfSeconds_nonneg I J
  set x := cnfSeconds I J with hx
  have hdd : cnfTsDays I J = ⌊x / (24 * 60 * 60)⌋ := by
    unfold cnfTsDays
    rw [← hx]
    exact truncQ_of_nonneg (by positivity)
  have hd1 : (cnfTsDays I J : ℚ) * (24 * 60 * 60) ≤ x := by
    rw [hdd]
    have h := Int.floor_le (x / (24 * 60 * 60))
    calc ((⌊x / (24 * 60 * 60)⌋ : ℤ) : ℚ) * (24 * 60 * 60)
        ≤ (x / (24 * 60 * 60)) * (24 * 60 * 60) := by
          apply mul_le_mul_of_nonneg_right h
          norm_num
      _ = x := by field_simp
  set d := cnfTsDays I J with hd
  have hsecs : cnfTsSecs I J = ⌊x - (d : ℚ) * (24 * 60 * 60)⌋ := by
    unfold cnfTsSecs
    rw [← hx, ← hd]
    exact truncQ_of_nonneg (by linarith)
  have hs1 : (cnfTsSecs I J : ℚ) ≤ x - (d : ℚ) * (24 * 60 * 60) := by
    rw [hsecs]
    exact Int.floor_le _
  set s := cnfTsSecs I J with hsv
  have hms : cnfTsMs I J = ⌊(x - (d : ℚ) * (24 * 60 * 60) - (s : ℚ)) * 1000⌋ := by
    unfold cnfTsMs
    rw [← hx, ← hd, ← hsv]
    apply truncQ_of_nonneg
    have h2 : (0 : ℚ) ≤ x - (d : ℚ) * (24 * 60 * 60) - (s : ℚ) := by linarith
    linarith
  set m := cnfTsMs I J with hm
  have key : ⌊x * 1000⌋ = (d * (24 * 60 * 60) + s) * 1000 + m := by
    have e1 : x * 1000 =
        (x - (d : ℚ) * (24 * 60 * 60) - (s : ℚ)) * 1000 +
          (((d * (24 * 60 * 60) + s) * 1000 : ℤ) : ℚ) := by
      push_cast
      ring
    rw [e1, Int.floor_add_int, hms]
    ring
  rw [key]
  push_cast
  ring

/-- Full behavioural characterisation of the block-scan loop, by induction on
the fuel under the fuel-sufficiency hypothesis `size ≤ SBeg + 512 * fuel`. -/
theorem findCnfBlockGo_spec (data : List Byte) (size B : Nat) :
    ∀ fuel SBeg, size ≤ SBeg + 512 * fuel →
      ((∀ p, (findCnfBlockGo data size B fuel SBeg).1 = some p →
        (∃ i, p = SBeg + 512 * i) ∧ p + 512 < size ∧ cnfMarkMatch data B p = true ∧
          ∀ i, SBeg + 512 * i < p → cnfMarkMatch data B (SBeg + 512 * i) = false) ∧
      ((findCnfBlockGo data size B fuel SBeg).1 = none ↔
        ∀ i, SBeg + 512 * i + 512 < size → cnfMarkMatch data B (SBeg + 512 * i) = false) ∧
      (∀ q ∈ (findCnfBlockGo data size B fuel SBeg).2,
        ((∃ i, q = SBeg + 512 * i) ∨ (∃ i, q = SBeg + 512 * i + 1)) ∧ q + 512 ≤ size)) := by
  intro fuel
  induction fuel with
  | zero =>
    intro SBeg hs
    refine ⟨?_, ?_, ?_⟩
    · intro p hp
      simp [findCnfBlockGo] at hp
    · simp only [findCnfBlockGo]
      constructor
      · intro _ i hi
        exfalso
        omega
      · intro _
        trivial
    · intro q hq
      simp [findCnfBlockGo] at hq
  | succ fuel ih =>
    intro SBeg hs
    by_cases hc : SBeg + 512 < size
    · by_cases hm : cnfMarkMatch data B SBeg = true
      · refine ⟨?_, ?_, ?_⟩
        · intro p hp
          simp only [findCnfBlockGo, if_pos hc, hm, if_true] at hp
          cases hp
          exact ⟨⟨0, by omega⟩, hc, hm, fun i hi => absurd hi (by omega)⟩
        · simp only [findCnfBlockGo, if_pos hc, hm, if_true]
          constructor
          · intro h
            cases h
          · intro hall
            have h0 := hall 0 (by omega)
            rw [show SBeg + 512 * 0 = SBeg by omega] at h0
            rw [hm] at h0
            cases h0
        · intro q hq
          simp only [findCnfBlockGo, if_pos hc, hm, if_true, List.mem_cons,
            List.mem_singleton] at hq
          rcases hq with rfl | rfl | hq
          · exact ⟨Or.inl ⟨0, by omega⟩, by omega⟩
          · exact ⟨Or.inr ⟨0, by omega⟩, by omega⟩
          · simp at hq
      · have hs2 : size ≤ (SBeg + 512) + 512 * fuel := by omega
        obtain ⟨ih1, ih2, ih3⟩ := ih (SBeg + 512) hs2
        have hmf : cnfMarkMatch data B SBeg = false := by
          cases hmm : cnfMarkMatch data B SBeg
          · rfl
          · exact absurd hmm hm
        refine ⟨?_, ?_, ?_⟩
        · intro p hp
          simp only [findCnfBlockGo, if_pos hc, hmf, Bool.false_eq_true, if_false] at hp
          obtain ⟨⟨i, hpi⟩, hlt, hmk, hfirst⟩ := ih1 p hp
          refine ⟨⟨i + 1, by omega⟩, hlt, hmk, ?_⟩
          intro j hj
          cases j with
          | zero =>
            rw [show SBeg + 512 * 0 = SBeg by omega]
            exact hmf
          | succ j =>
            have hj2 := hfirst j (by omega)
            rw [show SBeg + 512 + 512 * j = SBeg + 512 * (j + 1) by ring] at hj2
            exact hj2
        · simp only [findCnfBlockGo, if_pos hc, hmf, Bool.false_eq_true, if_false]
          rw [ih2]
          constructor
          · intro hall i hi
            cases i with
            | zero =>
              rw [show SBeg + 512 * 0 = SBeg by omega]
              exact hmf
            | succ i =>
              have hi2 := hall i (by omega)
              rw [show SBeg + 512 + 512 * i = SBeg + 512 * (i + 1) by ring] at hi2
              exact hi2
          · intro hall i hi
            have hi2 := hall (i + 1) (by omega)
            rw [show SBeg + 512 * (i + 1) = SBeg + 512 + 512 * i by ring] at hi2
            exact hi2
        · intro q hq
          simp only [findCnfBlockGo, if_pos hc, hmf, Bool.false_eq_true, if_false,
            List.mem_cons] at hq
          rcases hq with rfl | rfl | hq
          · exact ⟨Or.inl ⟨0, by omega⟩, by omega⟩
          · exact ⟨Or.inr ⟨0, by omega⟩, by omega⟩
          · obtain ⟨hio, hb⟩ := ih3 q hq
            refine ⟨?_, hb⟩
            rcases hio with ⟨i, hi⟩ | ⟨i, hi⟩
            · exact Or.inl ⟨i + 1, by omega⟩
            · exact Or.inr ⟨i + 1, by omega⟩
    · refine ⟨?_, ?_, ?_⟩
      · intro p hp
        simp [findCnfBlockGo, if_neg hc] at hp
      · simp only [findCnfBlockGo, if_neg hc]
        constructor
        · intro _ i hi
          exfalso
          omega
        · intro _
          trivial
      · intro q hq
        simp [findCnfBlockGo, if_neg hc] at hq

/-- Claim C7 (confirmed).  The decoded timestamp is the two-word value
`J*429.4967296 + I/1.0e7` seconds past the 1858-11-17 epoch, assembled from
whole days, whole seconds and milliseconds (hence truncated to the
millisecond); whenever the abstract range test reports an overflow the
result is the unset sentinel, and success or failure of the whole decode is
unaffected by that test. -/
theorem claim_C7 :
    (∀ (addOk : ℤ → ℤ → ℤ → Bool) (I J : Nat),
      (cnfStartTime addOk I J = none ↔
        addOk (cnfTsDays I J) (cnfTsSecs I J) (cnfTsMs I J) = false) ∧
      ∀ t, cnfStartTime addOk I J = some t →
        t = ((⌊cnfSeconds I J * 1000⌋ : ℤ) : ℚ) / 1000) ∧
    ∀ (cv : CalibValidFn) (f g : ℤ → ℤ → ℤ → Bool) (st0 : SpecFileState)
      (data : List Byte) (origPos : Nat) (good : Bool),
      (load_from_cnf ⟨cv, f⟩ st0 data origPos good).kind =
        (load_from_cnf ⟨cv, g⟩ st0 data origPos good).kind := by
  constructor
  · intro addOk I J
    constructor
    · unfold cnfStartTime
      cases h : addOk (cnfTsDays I J) (cnfTsSecs I J) (cnfTsMs I J) <;> simp [h]
    · intro t ht
      simp only [cnfStartTime] at ht
      cases h : addOk (cnfTsDays I J) (cnfTsSecs I J) (cnfTsMs I J) with
      | false => rw [h] at ht; simp at ht
      | true =>
        rw [h] at ht
        simp only [if_true] at ht
        simp at ht
        rw [← ht]
        have h2 := cnfTs_value I J
        push_cast at h2
        linear_combination h2
  · exact loadKind_tsAddOk_indep

/-- Witness for claim C7: an always-overflowing range test yields the unset
sentinel; the success of a concrete decode is unchanged by the range test. -/
theorem claim_C7_wit :
    cnfStartTime (fun _ _ _ => false) 0 0 = none ∧
    (load_from_cnf ⟨fun _ _ _ _ => true, fun _ _ _ => false⟩ {} dataA 0 true).kind =
      (load_from_cnf ⟨fun _ _ _ _ => true, fun _ _ _ => true⟩ {} dataA 0 true).kind ∧
    (load_from_cnf ⟨fun _ _ _ _ => true, fun _ _ _ => true⟩ {} dataA 0 true).kind =
      LoadKind.ok :=
  ⟨(claim_C7.1 (fun _ _ _ => false) 0 0).1.mpr rfl,
   claim_C7.2 (fun _ _ _ _ => true) (fun _ _ _ => false) (fun _ _ _ => true) {} dataA 0 true,
   by decide⟩

/-- Claim C8 (confirmed).  The block locator only succeeds at the first
matching candidate offset `SBeg + 512*i` (strictly before which every
candidate fails the marker test), reports `none` exactly when no candidate
with `candidate + 512 < size` matches (so it gives up as soon as
`candidate + 512 ≥ size`), and every byte position it reads is a candidate
offset or its successor, never exceeding `size - 512`. -/
theorem claim_C8 (data : List Byte) (size B SBeg : Nat) :
    (∀ p, findCnfBlock data size B SBeg = some p →
      (∃ i, p = SBeg + 512 * i) ∧ p + 512 < size ∧ cnfMarkMatch data B p = true ∧
        ∀ i, SBeg + 512 * i < p → cnfMarkMatch data B (SBeg + 512 * i) = false) ∧
    (findCnfBlock data size B SBeg = none ↔
      ∀ i, SBeg + 512 * i + 512 < size → cnfMarkMatch data B (SBeg + 512 * i) = false) ∧
    (∀ q ∈ findCnfBlockReads data size B SBeg,
      ((∃ i, q = SBeg + 512 * i) ∨ (∃ i, q = SBeg + 512 * i + 1)) ∧ q + 512 ≤ size) :=
  findCnfBlockGo_spec data size B size SBeg (by omega)

/-- Witness for claim C8 at a concrete stream: the match found at offset 512
satisfies the in-bounds and marker conditions. -/
theorem claim_C8_wit :
    512 + 512 < 1400 ∧ cnfMarkMatch dataA 0x5 512 = true :=
  ⟨((claim_C8 dataA 1400 0x5 0).1 512 (by decide)).2.1,
   ((claim_C8 dataA 1400 0x5 0).1 512 (by decide)).2.2.1⟩

end SpecUtilsCnf
